import Mathlib

/-!
Verification of the transaction ETL & anomaly-detection pipeline
(`app/etl.py`, `app/ml_model.py`, `app/db_operations.py`).

The Python code is shallowly embedded: each pandas column operation acts
row-wise, so the Transformer and Detector become maps over lists of fixed-shape
records; the database table becomes a partial map keyed by `transaction_id`;
fallible steps return `Except`/`Option`.  Machine floats are modelled by `ℚ`
(the claims under study never depend on float rounding error).
-/

namespace AIDetection

/-! ### Character-level primitives

`clean_rib` uses Python `str.split()` (whitespace splitting) and `str.upper()`.
We model whitespace by the ASCII whitespace characters Python's `split()`
separates on, and upper-casing on the ASCII range (account identifiers are
ASCII in this domain). -/

/-- ASCII whitespace characters recognised by Python `str.split()`:
space, tab, newline, carriage return, vertical tab, form feed. -/
def isPyWs (c : Char) : Bool :=
  decide (c.toNat = 32 ∨ c.toNat = 9 ∨ c.toNat = 10 ∨ c.toNat = 13 ∨
    c.toNat = 11 ∨ c.toNat = 12)

/-- ASCII upper-casing of one character, as Python `str.upper()` acts on
the ASCII range: `a`..`z` (codes 97..122) map down by 32, everything else
is unchanged. -/
def upChar (c : Char) : Char :=
  if 97 ≤ c.toNat ∧ c.toNat ≤ 122 then Char.ofNat (c.toNat - 32) else c

/-- `''.join(s.split())`: drop every whitespace character of the string. -/
def stripWs (l : List Char) : List Char :=
  l.filter (fun c => !isPyWs c)

/-- Python `str.strip()`: remove leading and trailing whitespace. -/
def pyStrip (s : String) : String :=
  String.mk (((s.data.dropWhile isPyWs).reverse.dropWhile isPyWs).reverse)

/-- `''.join(rib.split()).upper()` on the character list of a string. -/
def cleanRibStr (s : String) : String :=
  String.mk ((stripWs s.data).map upChar)

/-- `clean_rib` (etl.py lines 9-17): `None`/non-string input gives `''`;
otherwise all whitespace is removed and the result upper-cased; an empty
result is returned as `''`.  `none` models a null (or non-string) value. -/
def clean_rib (rib : Option String) : String :=
  match rib with
  | none => ""
  | some s =>
    let ribCleaned := cleanRibStr s
    if ribCleaned = "" then "" else ribCleaned

/-! ### Python `round(x, 2)` (banker's rounding to two decimals) -/

/-- Round to the nearest integer, ties to the even integer, as Python's
built-in `round` does. -/
def roundHalfEven (q : ℚ) : ℤ :=
  if q - ⌊q⌋ < 1/2 then ⌊q⌋
  else if (1 : ℚ)/2 < q - ⌊q⌋ then ⌊q⌋ + 1
  else if ⌊q⌋ % 2 = 0 then ⌊q⌋ else ⌊q⌋ + 1

/-- Python `round(x, 2)`. -/
def round2 (q : ℚ) : ℚ :=
  (roundHalfEven (q * 100) : ℚ) / 100

/-! ### Data model

`RawTransactionRecord` is the dict built by `extract_transactions`
(etl.py lines 109-134): every field may be null.  Amounts are `ℚ`. -/

structure RawTransactionRecord where
  message_id : Option String
  transaction_id : Option String
  instruction_id : Option String
  end_to_end_id : Option String
  clearing_system_ref : Option String
  amount : Option ℚ
  currency : Option String
  creation_date : Option String
  acceptance_datetime : Option String
  debtor_name : Option String
  debtor_birth_date : Option String
  debtor_birth_city : Option String
  debtor_birth_country : Option String
  debtor_account : Option String
  creditor_name : Option String
  creditor_account : Option String
  service_level_code : Option String
  local_instrument : Option String
  category_purpose : Option String
  charge_bearer : Option String
  debtor_bic : Option String
  creditor_bic : Option String
  debtor_member_id : Option String
  creditor_member_id : Option String
deriving Repr, DecidableEq

/-- Calendar timestamps are modelled as days since the Unix epoch.
`pd.Timestamp('2000-01-01')`, the sentinel used by `transform_data`'s
`fillna`, is day 10957. -/
def sentinelDate : Int := 10957

/-- `RawTransactionRecord` after `transform_data`: names, currency and
accounts are total strings, timestamps are parsed (with sentinel fallback),
and the derived `amount_log` column is present. -/
structure CanonicalTransaction where
  message_id : Option String
  transaction_id : Option String
  instruction_id : Option String
  end_to_end_id : Option String
  clearing_system_ref : Option String
  amount : Option ℚ
  currency : String
  creation_date : Int
  acceptance_datetime : Int
  debtor_name : String
  debtor_birth_date : Option String
  debtor_birth_city : Option String
  debtor_birth_country : Option String
  debtor_account : String
  creditor_name : String
  creditor_account : String
  service_level_code : Option String
  local_instrument : Option String
  category_purpose : Option String
  charge_bearer : Option String
  debtor_bic : Option String
  creditor_bic : Option String
  debtor_member_id : Option String
  creditor_member_id : Option String
  amount_log : Option ℚ
deriving Repr, DecidableEq

/-! ### Transformer (`transform_data`, etl.py lines 143-175) -/

/-- Name cleaning (etl.py lines 156-159): null becomes `'UNKNOWN'`, and a
value that is blank after trimming becomes `'UNKNOWN'`; other values are
kept as-is. -/
def cleanName (v : Option String) : String :=
  match v with
  | none => "UNKNOWN"
  | some s => if pyStrip s = "" then "UNKNOWN" else s

/-- Currency cleaning (etl.py lines 161-163): null or blank-after-trim
becomes the fallback code `'MAD'`. -/
def cleanCurrency (v : Option String) : String :=
  match v with
  | none => "MAD"
  | some s => if pyStrip s = "" then "MAD" else s

/-- Timestamp cleaning (etl.py lines 151-154):
`pd.to_datetime(col, errors='coerce').fillna(pd.Timestamp('2000-01-01'))`.
`parseDate` stands for the pandas datetime parser (`none` = unparsable). -/
def cleanDate (parseDate : String → Option Int) (v : Option String) : Int :=
  match v with
  | none => sentinelDate
  | some s => (parseDate s).getD sentinelDate

/-- One row of `transform_data` (etl.py lines 143-175).  Column order in the
source: absolute value of amount, timestamp coercion, name defaults,
currency default, account cleaning (`fillna('')` then `clean_rib`), and the
derived column `amount_log = round(amount, 2)` computed from the
already-absolute amount. -/
def transformRow (parseDate : String → Option Int) (r : RawTransactionRecord) :
    CanonicalTransaction :=
  let amt := r.amount.map (fun x => |x|)
  { message_id := r.message_id
    transaction_id := r.transaction_id
    instruction_id := r.instruction_id
    end_to_end_id := r.end_to_end_id
    clearing_system_ref := r.clearing_system_ref
    amount := amt
    currency := cleanCurrency r.currency
    creation_date := cleanDate parseDate r.creation_date
    acceptance_datetime := cleanDate parseDate r.acceptance_datetime
    debtor_name := cleanName r.debtor_name
    debtor_birth_date := r.debtor_birth_date
    debtor_birth_city := r.debtor_birth_city
    debtor_birth_country := r.debtor_birth_country
    debtor_account := clean_rib r.debtor_account
    creditor_name := cleanName r.creditor_name
    creditor_account := clean_rib r.creditor_account
    service_level_code := r.service_level_code
    local_instrument := r.local_instrument
    category_purpose := r.category_purpose
    charge_bearer := r.charge_bearer
    debtor_bic := r.debtor_bic
    creditor_bic := r.creditor_bic
    debtor_member_id := r.debtor_member_id
    creditor_member_id := r.creditor_member_id
    amount_log := amt.map round2 }

/-- `transform_data`: every column operation of etl.py lines 143-175 is
row-wise, so the whole transform is a map over the extracted records. -/
def transform_data (parseDate : String → Option Int)
    (transactions : List RawTransactionRecord) : List CanonicalTransaction :=
  transactions.map (transformRow parseDate)

/-! ### Extractor: the settlement-amount snippet (etl.py lines 99-107)

Only the amount/currency part of `extract_transactions` is claim-relevant.
Python `float()` is modelled on plain decimal literals (the form ISO 20022
amounts take): optional surrounding whitespace, optional sign, digits with an
optional fractional part.  Anything else fails to parse. -/

/-- Digits to a natural number, most significant first. -/
def digitsToNat (l : List Char) : Nat :=
  l.foldl (fun a c => a * 10 + (c.toNat - 48)) 0

/-- Parse an unsigned decimal literal: `"123"`, `"123.45"`, `"123."`, `".45"`. -/
def parseDecimal (l : List Char) : Option ℚ :=
  match l.span (fun c => c.isDigit) with
  | (intPart, rest) =>
    match rest with
    | [] => if intPart = [] then none else some (digitsToNat intPart : ℚ)
    | '.' :: frac =>
      if frac.all (fun c => c.isDigit) ∧ (intPart ≠ [] ∨ frac ≠ []) then
        some ((digitsToNat intPart : ℚ) + (digitsToNat frac : ℚ) / (10 ^ frac.length))
      else none
    | _ => none

/-- Python `float(s)` on plain decimal literals, `none` on `ValueError`. -/
def pyFloat (s : String) : Option ℚ :=
  let l := ((s.data.dropWhile isPyWs).reverse.dropWhile isPyWs).reverse
  match l with
  | '+' :: rest => parseDecimal rest
  | '-' :: rest => (parseDecimal rest).map (fun q => -q)
  | _ => parseDecimal l

/-- The settlement-amount extraction (etl.py lines 99-107).  The argument
models the `IntrBkSttlmAmt` element: `none` when absent, otherwise the pair
of its text (`none` when the element has no text) and its `Ccy` attribute.
Both `amount` and `currency` start as `None`; `currency` is assigned only on
the line after `float(...)` succeeds, so a `ValueError` leaves both null. -/
def extractAmountCurrency (amountElem : Option (Option String × Option String)) :
    Option ℚ × Option String :=
  match amountElem with
  | none => (none, none)
  | some (text, ccy) =>
    match text with
    | none => (none, none)
    | some t =>
      if t = "" then (none, none)
      else
        match pyFloat t with
        | some v => (some v, ccy)
        | none => (none, none)

/-! ### Anomaly Detector (`detect_anomalies`, ml_model.py lines 36-61)

The isolation forest itself is external library code (sklearn); what the
source guarantees is that `decision_function` and `predict` each yield one
value per row of the fitted frame.  They are therefore parameters: functions
of the whole batch and of the row.  After `transform_data` the `amount` and
`amount_log` columns exist whenever the frame is non-empty; a frame built
from an empty record list has no columns at all, so the `'amount' not in
df.columns` check raises exactly on the empty batch. -/

structure ScoredTransaction extends CanonicalTransaction where
  anomaly_score : ℚ
  is_anomaly : Int
deriving Repr, DecidableEq

/-- `detect_anomalies`: errors on the empty batch (missing `amount` column),
otherwise annotates every row with the model's decision value and the
remapped hard label (`-1` becomes `1`, anything else `0`). -/
def detect_anomalies
    (decision : List CanonicalTransaction → CanonicalTransaction → ℚ)
    (predict : List CanonicalTransaction → CanonicalTransaction → Int)
    (df : List CanonicalTransaction) : Except String (List ScoredTransaction) :=
  if df = [] then .error "La colonne amount est requise"
  else .ok (df.map (fun r =>
    { r with
      anomaly_score := decision df r
      is_anomaly := if predict df r = -1 then 1 else 0 }))

/-! ### Report Builder (`explain_anomalies`, ml_model.py lines 63-89)

`explain_anomalies` accepts an arbitrary frame, so its input is modelled
independently of `ScoredTransaction`: a row holds the three required columns
plus a representative payload column, and the frame records which of the
required columns are present. -/

structure ReportRow where
  transaction_id : String
  amount : ℚ
  anomaly_score : ℚ
  is_anomaly : Int
deriving Repr, DecidableEq

structure ReportInput where
  hasIsAnomaly : Bool
  hasAnomalyScore : Bool
  hasAmount : Bool
  rows : List ReportRow
deriving Repr, DecidableEq

inductive AnomalyReport where
  | error (msg : String)
  | info (msg : String)
  | report (count : Nat) (meanAmount maxAmount minScore : ℚ)
      (topAnomalies : List ReportRow)
deriving Repr, DecidableEq

/-- Descending-amount comparison used by `nlargest(5, 'amount')`. -/
def amountDesc (a b : ReportRow) : Prop := b.amount ≤ a.amount

instance : DecidableRel amountDesc :=
  fun a b => inferInstanceAs (Decidable (b.amount ≤ a.amount))

instance : IsTotal ReportRow amountDesc := ⟨fun a b => le_total b.amount a.amount⟩

instance : IsTrans ReportRow amountDesc := ⟨fun _ _ _ h1 h2 => le_trans h2 h1⟩

/-- pandas `nlargest(n, 'amount')` with the default `keep='first'`: sort by
amount descending, stably (ties keep input order), and take the first `n`. -/
def nlargestAmount (n : Nat) (l : List ReportRow) : List ReportRow :=
  (l.insertionSort amountDesc).take n

/-- `explain_anomalies` (ml_model.py lines 63-89): a structured error marker
when a required column is missing, an info marker when no row is flagged,
otherwise the aggregate report.  Total: the source converts every failure
into a returned marker instead of raising. -/
def explain_anomalies (df : ReportInput) : AnomalyReport :=
  if df.hasIsAnomaly ∧ df.hasAnomalyScore ∧ df.hasAmount then
    let anomalies := df.rows.filter (fun r => r.is_anomaly = 1)
    if anomalies = [] then .info "Aucune anomalie détectée"
    else
      .report anomalies.length
        ((anomalies.map (fun r => r.amount)).sum / (anomalies.length : ℚ))
        (((anomalies.map (fun r => r.amount)).max?).getD 0)
        (((anomalies.map (fun r => r.anomaly_score)).min?).getD 0)
        (nlargestAmount 5 anomalies)
  else .error "Colonnes manquantes"

/-! ### Persistence Gateway (`save_transactions`, db_operations.py lines 100-152)

The table has a unique constraint on `transaction_id`, so the store is a
partial map from `transaction_id` to the stored row.  One batch runs inside
one transaction: any raised row-level error rolls the whole batch back and
the function returns `False`.  `fails` abstracts whatever can make
`cursor.execute` raise on a given row (type coercion, constraint violation,
connection loss); `now` is the database's `CURRENT_TIMESTAMP`. -/

/-- A row of the frame handed to `save_transactions`.  The four columns the
code reads through `row.get(col, default)` may be absent (`none`); the
columns read through `row[col]` must be present. -/
structure SaveRow where
  transaction_id : String
  amount : ℚ
  currency : String
  creation_date : Int
  acceptance_datetime : Int
  debtor_name : String
  creditor_name : String
  debtor_account : Option String
  creditor_account : Option String
  is_anomaly : Option Bool
  anomaly_score : Option ℚ
deriving Repr, DecidableEq

/-- One persisted row of the `transactions` table. -/
structure StoredRow where
  transaction_id : String
  amount : ℚ
  currency : String
  creation_date : Int
  acceptance_datetime : Int
  debtor_name : String
  creditor_name : String
  debtor_account : String
  creditor_account : String
  is_anomaly : Bool
  anomaly_score : ℚ
  file_type : String
  processing_date : Int
deriving Repr, DecidableEq

/-- The table, keyed by its unique `transaction_id`. -/
def Store : Type := String → Option StoredRow

/-- ASCII lower-casing of one character, as Python `str.lower()` acts on the
ASCII range. -/
def lowChar (c : Char) : Char :=
  if 65 ≤ c.toNat ∧ c.toNat ≤ 90 then Char.ofNat (c.toNat + 32) else c

/-- Substring test on character lists (Python `in` on strings). -/
def containsSub (hay needle : List Char) : Bool :=
  hay.tails.any (fun t => needle.isPrefixOf t)

/-- `'PACS.008' if 'pacs.008' in xml_content.lower() else 'PACS.001'`
(db_operations.py line 102). -/
def fileTypeOf (xml : String) : String :=
  if containsSub (xml.data.map lowChar) "pacs.008".data then "PACS.008" else "PACS.001"

/-- The row built by the INSERT arm: `row.get` defaults fill the four
optional columns (`''`, `''`, `False`, `0`); `file_type` is the batch
classification and `processing_date` takes the column default
`CURRENT_TIMESTAMP`. -/
def insertRow (now : Int) (ft : String) (r : SaveRow) : StoredRow :=
  { transaction_id := r.transaction_id
    amount := r.amount
    currency := r.currency
    creation_date := r.creation_date
    acceptance_datetime := r.acceptance_datetime
    debtor_name := r.debtor_name
    creditor_name := r.creditor_name
    debtor_account := r.debtor_account.getD ""
    creditor_account := r.creditor_account.getD ""
    is_anomaly := r.is_anomaly.getD false
    anomaly_score := r.anomaly_score.getD 0
    file_type := ft
    processing_date := now }

/-- One `INSERT ... ON CONFLICT (transaction_id) DO UPDATE` execution
(db_operations.py lines 103-119).  On conflict only `processing_date`,
`amount`, `debtor_account` and `creditor_account` are overwritten with the
excluded row's values. -/
def upsertRow (now : Int) (ft : String) (r : SaveRow) (store : Store) : Store :=
  fun id =>
    if id = r.transaction_id then
      match store r.transaction_id with
      | some s => some
          { s with
            processing_date := now
            amount := r.amount
            debtor_account := r.debtor_account.getD ""
            creditor_account := r.creditor_account.getD "" }
      | none => some (insertRow now ft r)
    else store id

/-- The `for _, row in df.iterrows()` loop: execute each row in turn inside
the open transaction; a raising row aborts the loop. -/
def saveLoop (fails : SaveRow → Bool) (now : Int) (ft : String) :
    List SaveRow → Store → Except Unit Store
  | [], st => .ok st
  | r :: rs, st =>
    if fails r then .error ()
    else saveLoop fails now ft rs (upsertRow now ft r st)

/-- `save_transactions` (db_operations.py lines 100-152): on success the
transaction commits and `True` is returned; on any row-level failure the
transaction is rolled back (the store is unchanged) and `False` is returned. -/
def save_transactions (fails : SaveRow → Bool) (now : Int)
    (df : List SaveRow) (xml : String) (store : Store) : Store × Bool :=
  match saveLoop fails now (fileTypeOf xml) df store with
  | .ok st => (st, true)
  | .error _ => (store, false)

/-! ### Sample inputs used to exercise the definitions -/

/-- An extracted record where every optional XML element was absent. -/
def rawEmpty : RawTransactionRecord :=
  { message_id := none
    transaction_id := none
    instruction_id := none
    end_to_end_id := none
    clearing_system_ref := none
    amount := none
    currency := none
    creation_date := none
    acceptance_datetime := none
    debtor_name := none
    debtor_birth_date := none
    debtor_birth_city := none
    debtor_birth_country := none
    debtor_account := none
    creditor_name := none
    creditor_account := none
    service_level_code := none
    local_instrument := none
    category_purpose := none
    charge_bearer := none
    debtor_bic := none
    creditor_bic := none
    debtor_member_id := none
    creditor_member_id := none }

/-- A record with a negative settlement amount. -/
def rawNeg : RawTransactionRecord := { rawEmpty with amount := some (-5) }

/-- A record with settlement amount 3. -/
def rawThree : RawTransactionRecord := { rawEmpty with amount := some 3 }

/-- A record with null name, account, currency and dates but a real amount. -/
def rawBare : RawTransactionRecord := { rawEmpty with amount := some 7 }

/-- A datetime parser that parses nothing (all values coerce to the sentinel). -/
def noneDate : String → Option Int := fun _ => none

/-- A batch row carrying values for every optional column. -/
def sampleSaveRow : SaveRow :=
  ⟨"T1", 42, "MAD", 0, 0, "A", "B", some "X1", some "Y1", some true, some (-1)⟩

/-- A batch row from a frame lacking the four optional columns. -/
def bareSaveRow : SaveRow :=
  ⟨"T9", 5, "MAD", 0, 0, "A", "B", none, none, none, none⟩

/-- A previously persisted row for `transaction_id` `"T1"`. -/
def sampleStored : StoredRow :=
  ⟨"T1", 10, "EUR", 1, 2, "D", "C", "OLD1", "OLD2", true, 2, "PACS.001", 5⟩

/-- A store holding exactly the row `sampleStored`. -/
def store1 : Store := fun id => if id = "T1" then some sampleStored else none

/-- The empty store. -/
def store0 : Store := fun _ => none

def reportRowA : ReportRow := ⟨"A", 100, -1, 1⟩

def reportRowB : ReportRow := ⟨"B", 100, -2, 1⟩

def reportRowC : ReportRow := ⟨"C", 7, 1, 0⟩

/-- A scored frame with all required columns, two flagged rows of equal
amount and one unflagged row. -/
def sampleReportInput : ReportInput :=
  ⟨true, true, true, [reportRowA, reportRowC, reportRowB]⟩

/-! ## Helper lemmas -/

theorem toNat_ofNat_of_lt (n : Nat) (h : n < 55296) : (Char.ofNat n).toNat = n := by
  have hv : n.isValidChar := Or.inl h
  simp [Char.ofNat, hv, Char.ofNatAux, Char.toNat, UInt32.toNat, BitVec.toNat_ofNatLt]

theorem isPyWs_upChar (c : Char) : isPyWs (upChar c) = isPyWs c := by
  by_cases h : 97 ≤ c.toNat ∧ c.toNat ≤ 122
  · have h2 : c.toNat - 32 < 55296 := by omega
    simp only [upChar, if_pos h, isPyWs, toNat_ofNat_of_lt _ h2, decide_eq_decide]
    omega
  · simp [upChar, h]

theorem upChar_idem (c : Char) : upChar (upChar c) = upChar c := by
  by_cases h : 97 ≤ c.toNat ∧ c.toNat ≤ 122
  · have h2 : c.toNat - 32 < 55296 := by omega
    have hu : (upChar c).toNat = c.toNat - 32 := by
      simp [upChar, if_pos h, toNat_ofNat_of_lt _ h2]
    have hnot : ¬ (97 ≤ (upChar c).toNat ∧ (upChar c).toNat ≤ 122) := by omega
    conv_lhs => rw [upChar]
    rw [if_neg hnot]
  · simp [upChar, h]

theorem stripWs_map_upChar_stripWs (l : List Char) :
    stripWs ((stripWs l).map upChar) = (stripWs l).map upChar := by
  unfold stripWs
  rw [List.filter_map]
  have h1 : (List.filter ((fun c => !isPyWs c) ∘ upChar) (List.filter (fun c => !isPyWs c) l)) =
      List.filter (fun c => !isPyWs c) (List.filter (fun c => !isPyWs c) l) := by
    apply List.filter_congr
    intro c _
    simp [Function.comp, isPyWs_upChar]
  rw [h1, List.filter_filter]
  congr 1
  apply List.filter_congr
  intro c _
  cases hc : isPyWs c <;> simp [hc]

theorem map_upChar_idem (l : List Char) :
    (l.map upChar).map upChar = l.map upChar := by
  rw [List.map_map]
  apply List.map_congr_left
  intro c _
  exact upChar_idem c

theorem cleanRibStr_idem (s : String) : cleanRibStr (cleanRibStr s) = cleanRibStr s := by
  unfold cleanRibStr
  congr 1
  rw [show (String.mk ((stripWs s.data).map upChar)).data = (stripWs s.data).map upChar from rfl]
  rw [stripWs_map_upChar_stripWs, map_upChar_idem]

theorem mem_clean_rib_data (v : Option String) (ch : Char)
    (h : ch ∈ (clean_rib v).data) : isPyWs ch = false ∧ upChar ch = ch := by
  cases v with
  | none => simp [clean_rib] at h
  | some s =>
    simp only [clean_rib] at h
    by_cases he : cleanRibStr s = ""
    · rw [if_pos he] at h; simp at h
    · rw [if_neg he] at h
      unfold cleanRibStr at h
      rw [show (String.mk ((stripWs s.data).map upChar)).data =
            (stripWs s.data).map upChar from rfl] at h
      obtain ⟨c, hc, rfl⟩ := List.mem_map.mp h
      have hcw : isPyWs c = false := by
        have := (List.mem_filter.mp hc).2
        simpa using this
      refine ⟨?_, upChar_idem c⟩
      rw [isPyWs_upChar, hcw]

/-! Lemmas about the persistence loop. -/

theorem upsertRow_other (now : Int) (ft : String) (r : SaveRow) (store : Store)
    (t : String) (h : t ≠ r.transaction_id) :
    upsertRow now ft r store t = store t := by
  unfold upsertRow
  rw [if_neg h]

theorem upsertRow_self_congr (now : Int) (ft : String) (r : SaveRow)
    (σ τ : Store) (h : σ r.transaction_id = τ r.transaction_id) :
    upsertRow now ft r σ r.transaction_id = upsertRow now ft r τ r.transaction_id := by
  unfold upsertRow
  rw [if_pos rfl, if_pos rfl, h]

theorem upsertRow_conflict (now : Int) (ft : String) (r : SaveRow) (σ : Store)
    (s : StoredRow) (h : σ r.transaction_id = some s) :
    upsertRow now ft r σ r.transaction_id = some
      { s with
        processing_date := now
        amount := r.amount
        debtor_account := r.debtor_account.getD ""
        creditor_account := r.creditor_account.getD "" } := by
  unfold upsertRow
  rw [if_pos rfl, h]

theorem upsertRow_fresh (now : Int) (ft : String) (r : SaveRow) (σ : Store)
    (h : σ r.transaction_id = none) :
    upsertRow now ft r σ r.transaction_id = some (insertRow now ft r) := by
  unfold upsertRow
  rw [if_pos rfl, h]

theorem upsertRow_self_some (now : Int) (ft : String) (r : SaveRow) (σ : Store) :
    ∃ u, upsertRow now ft r σ r.transaction_id = some u ∧
      u.processing_date = now ∧ u.amount = r.amount ∧
      u.debtor_account = r.debtor_account.getD "" ∧
      u.creditor_account = r.creditor_account.getD "" := by
  cases h : σ r.transaction_id with
  | none => exact ⟨insertRow now ft r, upsertRow_fresh now ft r σ h, rfl, rfl, rfl, rfl⟩
  | some s =>
    exact ⟨_, upsertRow_conflict now ft r σ s h, rfl, rfl, rfl, rfl⟩

theorem saveLoop_ok_of_no_fail (fails : SaveRow → Bool) (now : Int) (ft : String)
    (rs : List SaveRow) :
    ∀ st : Store, (∀ r ∈ rs, fails r = false) →
      ∃ st', saveLoop fails now ft rs st = .ok st' := by
  induction rs with
  | nil => intro st _; exact ⟨st, rfl⟩
  | cons r rs ih =>
    intro st h
    have hr : fails r = false := h r (by simp)
    obtain ⟨st', h'⟩ := ih (upsertRow now ft r st) (fun x hx => h x (by simp [hx]))
    exact ⟨st', by simp [saveLoop, hr, h']⟩

theorem saveLoop_frame (fails : SaveRow → Bool) (now : Int) (ft : String)
    (rs : List SaveRow) :
    ∀ (st st' : Store) (t : String),
      saveLoop fails now ft rs st = .ok st' →
      (∀ r ∈ rs, r.transaction_id ≠ t) → st' t = st t := by
  induction rs with
  | nil =>
    intro st st' t h _
    cases h
    rfl
  | cons r rs ih =>
    intro st st' t h hne
    by_cases hr : fails r = true
    · simp [saveLoop, hr] at h
    · simp only [saveLoop, hr, if_false] at h
      have hrec := ih (upsertRow now ft r st) st' t h (fun x hx => hne x (by simp [hx]))
      rw [hrec, upsertRow_other now ft r st t (hne r (by simp)).symm]

theorem saveLoop_at (fails : SaveRow → Bool) (now : Int) (ft : String)
    (rs : List SaveRow) :
    ∀ (st st' : Store) (r : SaveRow),
      (∀ x ∈ rs, fails x = false) →
      (rs.map (fun x => x.transaction_id)).Nodup →
      r ∈ rs →
      saveLoop fails now ft rs st = .ok st' →
      st' r.transaction_id = upsertRow now ft r st r.transaction_id := by
  induction rs with
  | nil => intro _ _ _ _ _ hmem _; cases hmem
  | cons x xs ih =>
    intro st st' r hf hnd hmem hloop
    have hx : fails x = false := hf x (by simp)
    have hx' : ¬ (fails x = true) := by simp [hx]
    simp only [saveLoop, hx', if_false] at hloop
    rcases List.mem_cons.mp hmem with heq | hmem'
    · subst heq
      have hnotin : r.transaction_id ∉ xs.map (fun y => y.transaction_id) :=
        (List.nodup_cons.mp hnd).1
      refine saveLoop_frame fails now ft xs _ st' r.transaction_id hloop ?_
      intro y hy hcontra
      exact hnotin (by rw [← hcontra]; exact List.mem_map_of_mem _ hy)
    · have hnd' := (List.nodup_cons.mp hnd).2
      have h1 := ih (upsertRow now ft x st) st' r
        (fun y hy => hf y (by simp [hy])) hnd' hmem' hloop
      rw [h1]
      have hne : r.transaction_id ≠ x.transaction_id := by
        intro he
        have hmm : r.transaction_id ∈ xs.map (fun y => y.transaction_id) :=
          List.mem_map_of_mem _ hmem'
        rw [he] at hmm
        exact (List.nodup_cons.mp hnd).1 hmm
      exact upsertRow_self_congr now ft r _ _ (upsertRow_other now ft x st _ hne)

theorem saveLoop_error_of_fail (fails : SaveRow → Bool) (now : Int) (ft : String)
    (rs : List SaveRow) :
    ∀ st : Store, (∃ r ∈ rs, fails r = true) →
      saveLoop fails now ft rs st = .error () := by
  induction rs with
  | nil => intro st h; simp at h
  | cons x xs ih =>
    intro st h
    by_cases hx : fails x = true
    · simp [saveLoop, hx]
    · obtain ⟨r, hr, hfr⟩ := h
      rcases List.mem_cons.mp hr with he | hm
      · subst he; exact absurd hfr hx
      · simp only [saveLoop, hx, if_false]
        exact ih _ ⟨r, hm, hfr⟩

/-! Stability of the `nlargest` sort: rows of equal amount keep input order. -/

theorem filter_orderedInsert (q : ℚ) (a : ReportRow) (l : List ReportRow) :
    (List.orderedInsert amountDesc a l).filter (fun b => b.amount = q) =
      if a.amount = q then a :: l.filter (fun b => b.amount = q)
      else l.filter (fun b => b.amount = q) := by
  induction l with
  | nil => by_cases hq : a.amount = q <;> simp [List.orderedInsert, hq]
  | cons b t ih =>
    by_cases hab : amountDesc a b
    · by_cases hq : a.amount = q <;> simp [List.orderedInsert, hab, hq]
    · have hlt : a.amount < b.amount := lt_of_not_le hab
      by_cases hq : a.amount = q
      · have hbq : ¬ (b.amount = q) := by rw [← hq]; exact ne_of_gt hlt
        simp [List.orderedInsert, hab, ih, hq, hbq]
      · by_cases hb : b.amount = q <;> simp [List.orderedInsert, hab, ih, hq, hb]

theorem filter_insertionSort_amount (q : ℚ) (l : List ReportRow) :
    (List.insertionSort amountDesc l).filter (fun b => b.amount = q) =
      l.filter (fun b => b.amount = q) := by
  induction l with
  | nil => rfl
  | cons x xs ih =>
    by_cases hq : x.amount = q <;>
      simp [List.insertionSort, filter_orderedInsert, hq, ih]

theorem cleanName_strip_ne (v : Option String) : pyStrip (cleanName v) ≠ "" := by
  cases v with
  | none => decide
  | some s =>
    simp only [cleanName]
    by_cases h : pyStrip s = ""
    · rw [if_pos h]; decide
    · rw [if_neg h]; exact h

theorem cleanCurrency_strip_ne (v : Option String) : pyStrip (cleanCurrency v) ≠ "" := by
  cases v with
  | none => decide
  | some s =>
    simp only [cleanCurrency]
    by_cases h : pyStrip s = ""
    · rw [if_pos h]; decide
    · rw [if_neg h]; exact h

/-! ## Claim theorems -/

/-- C8: account-identifier cleaning is idempotent: for every input value,
feeding `clean_rib`'s result back into `clean_rib` returns it unchanged. -/
theorem clean_rib_idempotent (x : Option String) :
    clean_rib (some (clean_rib x)) = clean_rib x := by
  have hempty : clean_rib (some "") = "" := by decide
  cases x with
  | none => exact hempty
  | some s =>
    by_cases he : cleanRibStr s = ""
    · have h1 : clean_rib (some s) = "" := by simp [clean_rib, he]
      rw [h1, hempty]
    · have h1 : clean_rib (some s) = cleanRibStr s := by simp [clean_rib, he]
      rw [h1]
      simp [clean_rib, cleanRibStr_idem s, he]

/-- C6: every amount in the Transformer's output is non-negative: the raw
amount's sign is discarded by `df['amount'].abs()` (etl.py line 149). -/
theorem transform_amount_nonneg (parseDate : String → Option Int)
    (ts : List RawTransactionRecord) (c : CanonicalTransaction)
    (hc : c ∈ transform_data parseDate ts) (q : ℚ) (hq : c.amount = some q) :
    0 ≤ q := by
  obtain ⟨r, _, rfl⟩ := List.mem_map.mp hc
  simp only [transformRow] at hq
  cases ha : r.amount with
  | none => rw [ha] at hq; simp at hq
  | some a =>
    rw [ha] at hq
    simp only [Option.map_some'] at hq
    injection hq with h
    rw [← h]
    exact abs_nonneg a

/-- Witness for C6: a raw amount of `-5` is transformed to `5 ≥ 0`. -/
theorem transform_amount_nonneg_witness :
    transformRow noneDate rawNeg ∈ transform_data noneDate [rawNeg] ∧
    (transformRow noneDate rawNeg).amount = some 5 ∧ (0 : ℚ) ≤ 5 := by
  have hmem : transformRow noneDate rawNeg ∈ transform_data noneDate [rawNeg] := by
    simp [transform_data]
  have hamt : (transformRow noneDate rawNeg).amount = some 5 := by decide
  exact ⟨hmem, hamt, transform_amount_nonneg noneDate [rawNeg] _ hmem 5 hamt⟩

/-- C2: the Transformer yields exactly one canonical row per extracted
record, and whenever the Detector returns a result it has exactly one scored
row per canonical row: no rows are dropped between extraction and scoring. -/
theorem transform_detect_row_count (parseDate : String → Option Int)
    (ts : List RawTransactionRecord)
    (decision : List CanonicalTransaction → CanonicalTransaction → ℚ)
    (predict : List CanonicalTransaction → CanonicalTransaction → Int) :
    (transform_data parseDate ts).length = ts.length ∧
    ∀ out, detect_anomalies decision predict (transform_data parseDate ts) = .ok out →
      out.length = (transform_data parseDate ts).length := by
  refine ⟨by simp [transform_data], ?_⟩
  intro out h
  unfold detect_anomalies at h
  split at h
  · exact Except.noConfusion h
  · injection h with h'
    rw [← h']
    simp

/-- Witness for C2 on a one-record batch. -/
theorem transform_detect_row_count_witness :
    (transform_data noneDate [rawThree]).length = 1 ∧
    ∃ out, detect_anomalies (fun _ _ => 0) (fun _ _ => 0)
        (transform_data noneDate [rawThree]) = .ok out ∧ out.length = 1 := by
  obtain ⟨h1, h2⟩ :=
    transform_detect_row_count noneDate [rawThree] (fun _ _ => 0) (fun _ _ => 0)
  have hok : detect_anomalies (fun _ _ => 0) (fun _ _ => 0)
      (transform_data noneDate [rawThree]) =
      .ok ((transform_data noneDate [rawThree]).map (fun r =>
        { r with anomaly_score := 0, is_anomaly := 0 })) := by
    simp [detect_anomalies, transform_data]
  refine ⟨h1, _, hok, ?_⟩
  rw [h2 _ hok, h1]
  rfl

/-- C5 counterexample: with the settlement-amount element present, text
`"abc"` (which fails `float`) and attribute `Ccy="MAD"` present, the
extractor records the currency as null: the `currency = ...` line sits after
`float(...)` inside the `try`, so a `ValueError` skips it (etl.py 103-107).
The claim says the currency would still be read. -/
theorem currency_not_read_on_parse_failure_cex :
    extractAmountCurrency (some (some "abc", some "MAD")) = (none, none) ∧
    (extractAmountCurrency (some (some "abc", some "MAD"))).2 ≠ some "MAD" := by
  constructor
  · decide
  · decide

/-- C5 amended: when the settlement-amount text fails to parse, the record
carries a null amount and a null currency (the currency attribute is not
read in that case). -/
theorem amount_and_currency_null_on_parse_failure (t : String) (ccy : Option String)
    (hne : t ≠ "") (hp : pyFloat t = none) :
    extractAmountCurrency (some (some t, ccy)) = (none, none) := by
  simp [extractAmountCurrency, hne, hp]

/-- Witness for the amended C5 at text `"abc"`, currency attribute `"MAD"`. -/
theorem amount_and_currency_null_on_parse_failure_witness :
    ("abc" : String) ≠ "" ∧ pyFloat "abc" = none ∧
    extractAmountCurrency (some (some "abc", some "MAD")) = (none, none) :=
  ⟨by decide, by decide,
    amount_and_currency_null_on_parse_failure "abc" (some "MAD") (by decide) (by decide)⟩

/-- C1 (code bug): on a record with amount `3`, `transform_data` sets
`amount_log` to `round(3, 2) = 3` (etl.py line 172), but the derived feature
the pipeline documents - and the fallback `detect_anomalies` itself computes
when the column is absent (ml_model.py line 47) - is `ln(1 + amount)`, and
`ln(1 + 3) ≠ 3`.  The Transformer fills the `amount_log` column with a
rounded copy of the amount instead of the log feature. -/
theorem amount_log_rounds_instead_of_log :
    (transform_data noneDate [rawThree]).map (fun c => c.amount_log) = [some 3] ∧
    Real.log (1 + 3) ≠ (3 : ℝ) := by
  constructor
  · have hr : round2 (3 : ℚ) = 3 := by
      unfold round2 roundHalfEven
      norm_num
    simp [transform_data, transformRow, rawThree, rawEmpty, hr]
  · have h4 : (4 : ℝ) < Real.exp 3 := by
      have h := Real.add_one_lt_exp (x := 3) (by norm_num)
      linarith
    have hlt : Real.log 4 < 3 := (Real.log_lt_iff_lt_exp (by norm_num)).mpr h4
    intro hcontra
    rw [show (1 : ℝ) + 3 = 4 by norm_num] at hcontra
    exact absurd hcontra (ne_of_lt hlt)

/-- C7: default-filling totality of the Transformer: names and currency are
never blank (null/blank collapse to the `'UNKNOWN'` and `'MAD'` sentinels),
account identifiers are never null (null becomes `''`, other values lose all
whitespace and are upper-cased), and null or unparsable timestamps become
the sentinel reference date. -/
theorem transform_default_filling (parseDate : String → Option Int)
    (r : RawTransactionRecord) :
    pyStrip (transformRow parseDate r).debtor_name ≠ "" ∧
    pyStrip (transformRow parseDate r).creditor_name ≠ "" ∧
    pyStrip (transformRow parseDate r).currency ≠ "" ∧
    ((r.debtor_name = none ∨ ∃ s, r.debtor_name = some s ∧ pyStrip s = "") →
      (transformRow parseDate r).debtor_name = "UNKNOWN") ∧
    ((r.creditor_name = none ∨ ∃ s, r.creditor_name = some s ∧ pyStrip s = "") →
      (transformRow parseDate r).creditor_name = "UNKNOWN") ∧
    ((r.currency = none ∨ ∃ s, r.currency = some s ∧ pyStrip s = "") →
      (transformRow parseDate r).currency = "MAD") ∧
    (r.debtor_account = none → (transformRow parseDate r).debtor_account = "") ∧
    (r.creditor_account = none → (transformRow parseDate r).creditor_account = "") ∧
    (∀ ch ∈ (transformRow parseDate r).debtor_account.data,
      isPyWs ch = false ∧ upChar ch = ch) ∧
    (∀ ch ∈ (transformRow parseDate r).creditor_account.data,
      isPyWs ch = false ∧ upChar ch = ch) ∧
    ((r.creation_date = none ∨ ∃ s, r.creation_date = some s ∧ parseDate s = none) →
      (transformRow parseDate r).creation_date = sentinelDate) ∧
    ((r.acceptance_datetime = none ∨
        ∃ s, r.acceptance_datetime = some s ∧ parseDate s = none) →
      (transformRow parseDate r).acceptance_datetime = sentinelDate) := by
  refine ⟨cleanName_strip_ne _, cleanName_strip_ne _, cleanCurrency_strip_ne _,
    ?_, ?_, ?_, ?_, ?_, ?_, ?_, ?_, ?_⟩
  · intro h
    show cleanName r.debtor_name = "UNKNOWN"
    rcases h with h | ⟨s, hs, hstrip⟩
    · rw [h]; rfl
    · rw [hs]; simp [cleanName, hstrip]
  · intro h
    show cleanName r.creditor_name = "UNKNOWN"
    rcases h with h | ⟨s, hs, hstrip⟩
    · rw [h]; rfl
    · rw [hs]; simp [cleanName, hstrip]
  · intro h
    show cleanCurrency r.currency = "MAD"
    rcases h with h | ⟨s, hs, hstrip⟩
    · rw [h]; rfl
    · rw [hs]; simp [cleanCurrency, hstrip]
  · intro h
    show clean_rib r.debtor_account = ""
    rw [h]; rfl
  · intro h
    show clean_rib r.creditor_account = ""
    rw [h]; rfl
  · intro ch hch
    exact mem_clean_rib_data r.debtor_account ch hch
  · intro ch hch
    exact mem_clean_rib_data r.creditor_account ch hch
  · intro h
    show cleanDate parseDate r.creation_date = sentinelDate
    rcases h with h | ⟨s, hs, hp⟩
    · rw [h]; rfl
    · rw [hs]; simp [cleanDate, hp]
  · intro h
    show cleanDate parseDate r.acceptance_datetime = sentinelDate
    rcases h with h | ⟨s, hs, hp⟩
    · rw [h]; rfl
    · rw [hs]; simp [cleanDate, hp]

/-- Witness for C7 on a record whose name, currency, account and timestamp
elements were all absent. -/
theorem transform_default_filling_witness :
    (transformRow noneDate rawBare).debtor_name = "UNKNOWN" ∧
    (transformRow noneDate rawBare).currency = "MAD" ∧
    (transformRow noneDate rawBare).debtor_account = "" ∧
    (transformRow noneDate rawBare).creation_date = sentinelDate := by
  obtain ⟨-, -, -, h4, -, h6, h7, -, -, -, h11, -⟩ :=
    transform_default_filling noneDate rawBare
  exact ⟨h4 (Or.inl rfl), h6 (Or.inl rfl), h7 rfl, h11 (Or.inl rfl)⟩

/-- C9: the report builder is total and fails softly: a missing required
column yields the structured error marker, zero flagged rows yield the info
marker, and otherwise the report's top-anomalies list is `nlargest(5)` on
the flagged rows - at most 5 rows, all flagged, in descending amount order,
with rows of equal amount kept in input order (stable sort). -/
theorem explain_anomalies_total_spec (df : ReportInput) :
    (¬ (df.hasIsAnomaly = true ∧ df.hasAnomalyScore = true ∧ df.hasAmount = true) →
      ∃ m, explain_anomalies df = .error m) ∧
    ((df.hasIsAnomaly = true ∧ df.hasAnomalyScore = true ∧ df.hasAmount = true) →
      df.rows.filter (fun r => r.is_anomaly = 1) = [] →
      ∃ m, explain_anomalies df = .info m) ∧
    ((df.hasIsAnomaly = true ∧ df.hasAnomalyScore = true ∧ df.hasAmount = true) →
      df.rows.filter (fun r => r.is_anomaly = 1) ≠ [] →
      ∃ c mn mx ms, explain_anomalies df = .report c mn mx ms
          (nlargestAmount 5 (df.rows.filter (fun r => r.is_anomaly = 1))) ∧
        (nlargestAmount 5 (df.rows.filter (fun r => r.is_anomaly = 1))).length ≤ 5 ∧
        (∀ x ∈ nlargestAmount 5 (df.rows.filter (fun r => r.is_anomaly = 1)),
          x.is_anomaly = 1) ∧
        (nlargestAmount 5 (df.rows.filter (fun r => r.is_anomaly = 1))).Pairwise
          amountDesc ∧
        ∀ q : ℚ,
          (List.insertionSort amountDesc
              (df.rows.filter (fun r => r.is_anomaly = 1))).filter
              (fun b => b.amount = q) =
            (df.rows.filter (fun r => r.is_anomaly = 1)).filter
              (fun b => b.amount = q)) := by
  refine ⟨?_, ?_, ?_⟩
  · intro h
    refine ⟨"Colonnes manquantes", ?_⟩
    simp only [explain_anomalies]
    rw [if_neg h]
  · intro h hemp
    refine ⟨"Aucune anomalie détectée", ?_⟩
    simp only [explain_anomalies]
    rw [if_pos h, if_pos hemp]
  · intro h hne
    refine ⟨(df.rows.filter (fun r => r.is_anomaly = 1)).length,
      ((df.rows.filter (fun r => r.is_anomaly = 1)).map (fun x => x.amount)).sum /
        ((df.rows.filter (fun r => r.is_anomaly = 1)).length : ℚ),
      (((df.rows.filter (fun r => r.is_anomaly = 1)).map (fun x => x.amount)).max?).getD 0,
      (((df.rows.filter (fun r => r.is_anomaly = 1)).map
        (fun x => x.anomaly_score)).min?).getD 0,
      ?_, ?_, ?_, ?_, ?_⟩
    · simp only [explain_anomalies]
      rw [if_pos h, if_neg hne]
    · unfold nlargestAmount
      rw [List.length_take]
      exact min_le_left _ _
    · intro x hx
      unfold nlargestAmount at hx
      have h1 := List.mem_of_mem_take hx
      have h2 := (List.perm_insertionSort amountDesc _).subset h1
      have h3 := (List.mem_filter.mp h2).2
      simpa using h3
    · exact List.Pairwise.sublist (List.take_sublist 5 _)
        (List.sorted_insertionSort amountDesc _)
    · intro q
      exact filter_insertionSort_amount q _

/-- Witness for C9 on a frame with all columns present and two flagged rows. -/
theorem explain_anomalies_total_spec_witness :
    ∃ c mn mx ms, explain_anomalies sampleReportInput = .report c mn mx ms
        (nlargestAmount 5 (sampleReportInput.rows.filter (fun r => r.is_anomaly = 1))) ∧
      (nlargestAmount 5
        (sampleReportInput.rows.filter (fun r => r.is_anomaly = 1))).length ≤ 5 := by
  obtain ⟨-, -, h3⟩ := explain_anomalies_total_spec sampleReportInput
  obtain ⟨c, mn, mx, ms, hrep, hlen, -, -, -⟩ := h3 (by decide) (by decide)
  exact ⟨c, mn, mx, ms, hrep, hlen⟩

/-- C3: on a `transaction_id` conflict, `save_transactions` updates only
`processing_date` (to upsert time), `amount`, `debtor_account` and
`creditor_account`; `is_anomaly`, `anomaly_score`, `file_type`, currency,
timestamps and names keep their stored values; ids not in the batch are
untouched; and upserting the same batch twice keeps the first upsert's
anomaly fields while amount/accounts reflect the second call. -/
theorem save_conflict_frame_and_reupsert
    (fails : SaveRow → Bool) (now1 now2 : Int) (xml : String) (store : Store)
    (df : List SaveRow)
    (hfail : ∀ r ∈ df, fails r = false)
    (hids : (df.map (fun r => r.transaction_id)).Nodup) :
    (∀ r ∈ df, ∀ s, store r.transaction_id = some s →
      ∃ u, (save_transactions fails now1 df xml store).1 r.transaction_id = some u ∧
        u.processing_date = now1 ∧ u.amount = r.amount ∧
        u.debtor_account = r.debtor_account.getD "" ∧
        u.creditor_account = r.creditor_account.getD "" ∧
        u.is_anomaly = s.is_anomaly ∧ u.anomaly_score = s.anomaly_score ∧
        u.file_type = s.file_type ∧ u.currency = s.currency ∧
        u.creation_date = s.creation_date ∧
        u.acceptance_datetime = s.acceptance_datetime ∧
        u.debtor_name = s.debtor_name ∧ u.creditor_name = s.creditor_name) ∧
    (∀ t : String, (∀ r ∈ df, r.transaction_id ≠ t) →
      (save_transactions fails now1 df xml store).1 t = store t) ∧
    (∀ r ∈ df, ∃ u1 u2,
      (save_transactions fails now1 df xml store).1 r.transaction_id = some u1 ∧
      (save_transactions fails now2 df xml
        (save_transactions fails now1 df xml store).1).1 r.transaction_id = some u2 ∧
      u2.is_anomaly = u1.is_anomaly ∧ u2.anomaly_score = u1.anomaly_score ∧
      u2.file_type = u1.file_type ∧ u2.amount = r.amount ∧
      u2.debtor_account = r.debtor_account.getD "" ∧
      u2.creditor_account = r.creditor_account.getD "" ∧
      u2.processing_date = now2) := by
  obtain ⟨st1, h1⟩ := saveLoop_ok_of_no_fail fails now1 (fileTypeOf xml) df store hfail
  have e1 : save_transactions fails now1 df xml store = (st1, true) := by
    unfold save_transactions
    rw [h1]
  obtain ⟨st2, h2⟩ := saveLoop_ok_of_no_fail fails now2 (fileTypeOf xml) df st1 hfail
  have e2 : save_transactions fails now2 df xml st1 = (st2, true) := by
    unfold save_transactions
    rw [h2]
  refine ⟨?_, ?_, ?_⟩
  · intro r hr s hs
    have hat := saveLoop_at fails now1 (fileTypeOf xml) df store st1 r hfail hids hr h1
    have hu : st1 r.transaction_id = some
        { s with
          processing_date := now1
          amount := r.amount
          debtor_account := r.debtor_account.getD ""
          creditor_account := r.creditor_account.getD "" } := by
      rw [hat]
      exact upsertRow_conflict now1 (fileTypeOf xml) r store s hs
    refine ⟨{ s with
        processing_date := now1
        amount := r.amount
        debtor_account := r.debtor_account.getD ""
        creditor_account := r.creditor_account.getD "" },
      ?_, rfl, rfl, rfl, rfl, rfl, rfl, rfl, rfl, rfl, rfl, rfl, rfl⟩
    rw [e1]
    exact hu
  · intro t ht
    rw [e1]
    exact saveLoop_frame fails now1 (fileTypeOf xml) df store st1 t h1 ht
  · intro r hr
    have hat1 := saveLoop_at fails now1 (fileTypeOf xml) df store st1 r hfail hids hr h1
    have hat2 := saveLoop_at fails now2 (fileTypeOf xml) df st1 st2 r hfail hids hr h2
    obtain ⟨u1, hu1, hpd1, ham1, hda1, hca1⟩ :=
      upsertRow_self_some now1 (fileTypeOf xml) r store
    have hs1 : st1 r.transaction_id = some u1 := by rw [hat1, hu1]
    have hs2 : st2 r.transaction_id = some
        { u1 with
          processing_date := now2
          amount := r.amount
          debtor_account := r.debtor_account.getD ""
          creditor_account := r.creditor_account.getD "" } := by
      rw [hat2]
      exact upsertRow_conflict now2 (fileTypeOf xml) r st1 u1 hs1
    refine ⟨u1, { u1 with
        processing_date := now2
        amount := r.amount
        debtor_account := r.debtor_account.getD ""
        creditor_account := r.creditor_account.getD "" },
      by rw [e1]; exact hs1, by rw [e1, e2]; exact hs2,
      rfl, rfl, rfl, rfl, rfl, rfl, rfl⟩

/-- Witness for C3: upserting a row whose id `"T1"` is already stored keeps
the stored anomaly fields, file type and currency while amount, accounts and
processing date take the new call's values. -/
theorem save_conflict_witness :
    ∃ u, (save_transactions (fun _ => false) 7 [sampleSaveRow] "doc" store1).1 "T1" =
        some u ∧
      u.is_anomaly = true ∧ u.anomaly_score = 2 ∧ u.file_type = "PACS.001" ∧
      u.currency = "EUR" ∧ u.amount = 42 ∧ u.processing_date = 7 ∧
      u.debtor_account = "X1" := by
  obtain ⟨h1, -, -⟩ := save_conflict_frame_and_reupsert (fun _ => false) 7 8 "doc"
    store1 [sampleSaveRow] (by simp) (by simp)
  obtain ⟨u, hu, hpd, ham, hda, hca, hia, has, hft, hcur, -, -, -, -⟩ :=
    h1 sampleSaveRow (by simp) sampleStored (by decide)
  refine ⟨u, hu, ?_, ?_, ?_, ?_, ?_, ?_, ?_⟩
  · rw [hia]; rfl
  · rw [has]; rfl
  · rw [hft]; rfl
  · rw [hcur]; rfl
  · rw [ham]; rfl
  · rw [hpd]
  · rw [hda]; rfl

/-- C4: any row-level failure makes `save_transactions` roll the whole batch
back - the store is returned exactly as it was - and report `False` to the
caller; no batch is ever partially persisted. -/
theorem save_rollback_on_failure (fails : SaveRow → Bool) (now : Int)
    (df : List SaveRow) (xml : String) (store : Store)
    (h : ∃ r ∈ df, fails r = true) :
    save_transactions fails now df xml store = (store, false) := by
  unfold save_transactions
  rw [saveLoop_error_of_fail fails now (fileTypeOf xml) df store h]

/-- Witness for C4: a batch whose row fails leaves the store untouched and
returns `false`. -/
theorem save_rollback_on_failure_witness :
    save_transactions (fun _ => true) 7 [sampleSaveRow] "doc" store1 =
      (store1, false) :=
  save_rollback_on_failure (fun _ => true) 7 [sampleSaveRow] "doc" store1
    ⟨sampleSaveRow, by simp, rfl⟩

/-- C10: a batch lacking the `is_anomaly`, `anomaly_score`,
`debtor_account` and `creditor_account` columns still saves successfully:
each newly inserted row gets `is_anomaly = False`, `anomaly_score = 0` and
empty-string accounts from the `row.get` defaults, so unscored rows can
silently enter the store. -/
theorem save_defaults_on_missing_columns (fails : SaveRow → Bool) (now : Int)
    (df : List SaveRow) (xml : String) (store : Store)
    (hfail : ∀ r ∈ df, fails r = false)
    (hids : (df.map (fun r => r.transaction_id)).Nodup)
    (r : SaveRow) (hr : r ∈ df)
    (hfresh : store r.transaction_id = none)
    (hda : r.debtor_account = none) (hca : r.creditor_account = none)
    (hia : r.is_anomaly = none) (has : r.anomaly_score = none) :
    (save_transactions fails now df xml store).2 = true ∧
    ∃ u, (save_transactions fails now df xml store).1 r.transaction_id = some u ∧
      u.is_anomaly = false ∧ u.anomaly_score = 0 ∧
      u.debtor_account = "" ∧ u.creditor_account = "" := by
  obtain ⟨st1, h1⟩ := saveLoop_ok_of_no_fail fails now (fileTypeOf xml) df store hfail
  have e1 : save_transactions fails now df xml store = (st1, true) := by
    unfold save_transactions
    rw [h1]
  have hat := saveLoop_at fails now (fileTypeOf xml) df store st1 r hfail hids hr h1
  have hs1 : st1 r.transaction_id = some (insertRow now (fileTypeOf xml) r) := by
    rw [hat]
    exact upsertRow_fresh now (fileTypeOf xml) r store hfresh
  rw [e1]
  refine ⟨rfl, insertRow now (fileTypeOf xml) r, hs1, ?_, ?_, ?_, ?_⟩
  · simp [insertRow, hia]
  · simp [insertRow, has]
  · simp [insertRow, hda]
  · simp [insertRow, hca]

/-- Witness for C10: a row from a frame without the four optional columns is
persisted with the defaults. -/
theorem save_defaults_on_missing_columns_witness :
    (save_transactions (fun _ => false) 7 [bareSaveRow] "doc" store0).2 = true ∧
    ∃ u, (save_transactions (fun _ => false) 7 [bareSaveRow] "doc" store0).1 "T9" =
        some u ∧
      u.is_anomaly = false ∧ u.anomaly_score = 0 ∧
      u.debtor_account = "" ∧ u.creditor_account = "" :=
  save_defaults_on_missing_columns (fun _ => false) 7 [bareSaveRow] "doc" store0
    (by simp) (by simp) bareSaveRow (by simp) rfl rfl rfl rfl rfl

end AIDetection
